import Mathlib

/-!
Verification of the playback-simulation subsystem of the `MusicPlayer` React
component (`src/src/components/MusicPlayer.tsx`).

The component is shallowly embedded as an explicit state machine:

* `CompState` collects the component's mutable cells:
  `playerState`/`volume`/`currentSeconds` (React `useState`),
  `pending` (the live `setTimeout` scheduled by `handleTogglePlayPause`,
  held in `toggleTimeoutRef`; `none` when no uncancelled, unfired timer exists),
  `mounted` (`isMountedRef`), `lastFrame` (`lastFrameRef`), and the two
  motion values `rotation` (`artworkRotation`) and `progressVal` (`progress`).
* `Event` enumerates the event-loop callbacks that can run: a click on the
  play/pause button (`toggle`), the firing of the scheduled toggle timeout
  (`fireTimeout`), one `requestAnimationFrame` callback at timestamp `now`
  (`frame now`), one firing of the 250 ms label interval (`sample`), a pointer
  update of the volume slider (`setVolume`), and component unmount
  (`teardown`).
* `step` applies one event, including the `useEffect` reaction on
  `isPlaying` (lines 54-58): when a step leaves the `playing` state the
  effect re-runs its `!isPlaying` branch and resets `lastFrameRef` to `null`.

Numbers are modelled as exact rationals (`ℚ`); the JavaScript `%` operator
(truncated remainder) is `jsMod`.  For the volume path a second, exact model
`JSNum` with the IEEE special values `NaN`/`±∞` captures JavaScript division
by zero, which the rational idealisation cannot express.
-/

/-- Player state, from `type PlayerState = "playing" | "paused" | "loading"`
(line 8). -/
inductive PState where
  | playing
  | paused
  | loading
deriving DecidableEq, Repr

/-- `const TOGGLE_DELAY_MS = 500` (line 10).  The delay length itself only
fixes the ordering of events (timer fires strictly after scheduling), which is
captured by the event sequencing; the constant is kept for reference. -/
def TOGGLE_DELAY_MS : ℚ := 500

/-- `const PROGRESS_DURATION_MS = 225_000` (line 11). -/
def PROGRESS_DURATION_MS : ℚ := 225000

/-- `totalSeconds = PROGRESS_DURATION_MS / 1000` (line 39). -/
def totalSeconds : ℚ := PROGRESS_DURATION_MS / 1000

/-- `clamp01(value) = Math.min(1, Math.max(0, value))` (lines 13-15), on the
rational idealisation of JavaScript numbers. -/
def clamp01 (value : ℚ) : ℚ := min 1 (max 0 value)

/-- `String(n).padStart(2, "0")` for the seconds field (line 21). -/
def padStart2 (s : String) : String :=
  if s.length < 2 then String.mk (List.replicate (2 - s.length) '0') ++ s else s

/-- `formatTime` (lines 17-22): floor the input, clamp at zero, split into
minutes and seconds, zero-pad the seconds to two digits.
`clamped = Math.max(0, Math.floor(totalSeconds))`; for the resulting
non-negative integer, `Math.floor(clamped / 60)` is integer division and
`clamped % 60` is the integer remainder. -/
def formatTime (s : ℚ) : String :=
  toString (max 0 ⌊s⌋ / 60) ++ ":" ++ padStart2 (toString (max 0 ⌊s⌋ % 60))

/-- JavaScript truncation toward zero, as used by the `%` operator. -/
def jsTrunc (x : ℚ) : ℤ := if 0 ≤ x then ⌊x⌋ else ⌈x⌉

/-- JavaScript `x % y` on (finite, nonzero-divisor) numbers: the remainder of
truncated division, `x - y * trunc(x / y)`. -/
def jsMod (x y : ℚ) : ℚ := x - y * jsTrunc (x / y)

/-- Mathematical modulus on rationals, `x mod y = x - y * ⌊x / y⌋`; this is
the `mod` the specification's equations refer to. -/
def mathMod (x y : ℚ) : ℚ := x - y * ⌊x / y⌋

/-- The state the second toggle would compute (`isPlaying ? "paused" :
"playing"`, line 95): the code's own target computation as a function of the
current player state. -/
def nextStateOf (st : PState) : PState :=
  if st = PState.playing then PState.paused else PState.playing

/-- Bounding box of the `#volume-track` element (`getBoundingClientRect()`,
line 111): only `left` and `width` are read. -/
structure TrackRect where
  left : ℚ
  width : ℚ
deriving DecidableEq, Repr

/-- The component's mutable state (see module docstring for the mapping onto
the refs, `useState` cells and motion values of lines 25-42). -/
structure CompState where
  mounted : Bool
  playerState : PState
  pending : Option PState
  lastFrame : Option ℚ
  rotation : ℚ
  progressVal : ℚ
  volume : ℚ
  currentSeconds : ℚ
deriving DecidableEq, Repr

/-- The event-loop callbacks that can execute (see module docstring). -/
inductive Event where
  | toggle
  | fireTimeout
  | frame (now : ℚ)
  | sample
  | setVolume (track : Option TrackRect) (clientX : ℚ)
  | teardown
deriving DecidableEq, Repr

/-- `handleTogglePlayPause` (lines 92-106): ignore the click while loading;
otherwise compute the target state, synchronously set `playerState` to
loading, clear any previously scheduled timeout and schedule a fresh one
carrying the captured target (so `pending` is replaced). -/
def handleTogglePlayPause (s : CompState) : CompState :=
  if s.playerState = PState.loading then s
  else
    { s with
        playerState := PState.loading
        pending := some (nextStateOf s.playerState) }

/-- The scheduled toggle timeout fires (lines 102-105): the timer is consumed;
if the component is still mounted, `playerState` becomes the captured target,
otherwise the callback returns without touching state. -/
def fireToggle (s : CompState) : CompState :=
  match s.pending with
  | none => s
  | some t =>
      if s.mounted then { s with playerState := t, pending := none }
      else { s with pending := none }

/-- One `requestAnimationFrame` callback body (`tick`, lines 61-77), reached
only while the loop is active: read the last timestamp (defaulting to `now`),
clamp the delta at zero, advance the rotation by `deltaMs * 360 / 20000`
modulo 360 and the progress by `deltaMs / PROGRESS_DURATION_MS` modulo 1, and
record `now` as the last timestamp. -/
def tickFrame (s : CompState) (now : ℚ) : CompState :=
  let last := s.lastFrame.getD now
  let deltaMs := max 0 (now - last)
  let rotationDelta := deltaMs * 360 / 20000
  let nextProgress := s.progressVal + deltaMs / PROGRESS_DURATION_MS
  { s with
      lastFrame := some now
      rotation := jsMod (s.rotation + rotationDelta) 360
      progressVal := jsMod nextProgress 1 }

/-- `handleSetVolumeFromClientX` (lines 108-114), rational idealisation: if
the track element is absent, do nothing; otherwise store
`clamp01((clientX - rect.left) / rect.width)`. -/
def handleSetVolumeFromClientX (s : CompState) (track : Option TrackRect)
    (clientX : ℚ) : CompState :=
  match track with
  | none => s
  | some rect => { s with volume := clamp01 ((clientX - rect.left) / rect.width) }

/-- The raw effect of one event, before the `useEffect` reaction. -/
def rawStep (s : CompState) : Event → CompState
  | Event.toggle => handleTogglePlayPause s
  | Event.fireTimeout => fireToggle s
  | Event.frame now =>
      -- The animation loop is only scheduled while `isPlaying` (lines 54-81),
      -- and the callback returns immediately when unmounted (line 62).
      if s.playerState = PState.playing then
        if s.mounted then tickFrame s now else s
      else s
  | Event.sample =>
      -- The 250 ms interval (lines 83-90) copies the progress into the label.
      { s with currentSeconds := s.progressVal * totalSeconds }
  | Event.setVolume track clientX => handleSetVolumeFromClientX s track clientX
  | Event.teardown =>
      -- Unmount (lines 44-52): `isMountedRef` drops and the scheduled toggle
      -- timeout is cleared; the frame and interval effects cancel their
      -- callbacks without touching the state cells.
      { s with mounted := false, pending := none }

/-- One event step including the React effect on `isPlaying` (lines 54-58):
when the step leaves the `playing` state, the effect re-runs its `!isPlaying`
branch and resets `lastFrameRef` to `null`. -/
def step (s : CompState) (e : Event) : CompState :=
  if s.playerState = PState.playing ∧ (rawStep s e).playerState ≠ PState.playing then
    { rawStep s e with lastFrame := none }
  else rawStep s e

/-- Run a list of events in order. -/
def runEvents (s : CompState) : List Event → CompState
  | [] => s
  | e :: rest => runEvents (step s e) rest

/-- The state at mount (lines 25-42): paused, no pending timer, no last frame
timestamp, rotation 0, progress 0.3688889, volume 0.65, and the label
initialised from the progress. -/
def initState : CompState :=
  { mounted := true
    playerState := PState.paused
    pending := none
    lastFrame := none
    rotation := 0
    progressVal := 3688889 / 10000000
    volume := 65 / 100
    currentSeconds := 3688889 / 10000000 * totalSeconds }

/-- A reachable state in which the player is playing: mount, toggle once, let
the toggle timeout fire. -/
def examplePlayingState : CompState :=
  runEvents initState [Event.toggle, Event.fireTimeout]

/-! ### Exact JavaScript-number model for the volume path

`CompState.volume` above idealises JavaScript numbers as rationals, which is
exact for every case except division by zero.  `JSNum` adds the IEEE special
values so that `clamp01((clientX - rect.left) / rect.width)` can be evaluated
faithfully on a degenerate bounding box (`rect.width = 0`, where
`getBoundingClientRect` yields positive zero).  No rounding enters these
cases: subtraction of equal doubles is exactly `0`, and `0 / 0` is `NaN`. -/

/-- A JavaScript number: a finite value (kept exact) or a special value. -/
inductive JSNum where
  | num (q : ℚ)
  | nan
  | posInf
  | negInf
deriving DecidableEq, Repr

/-- JavaScript subtraction on finite numbers (the only case reached here:
`clientX` and `rect.left` are finite). -/
def jsSub : JSNum → JSNum → JSNum
  | JSNum.num a, JSNum.num b => JSNum.num (a - b)
  | _, _ => JSNum.nan

/-- JavaScript division for a finite dividend and a finite, non-negatively
signed divisor (the divisor is `rect.width ≥ 0`, positive zero when zero):
`0 / 0 = NaN`, `a / 0 = ±∞` by the sign of `a`, otherwise exact. -/
def jsDiv : JSNum → JSNum → JSNum
  | JSNum.num a, JSNum.num b =>
      if b = 0 then
        if a = 0 then JSNum.nan
        else if 0 < a then JSNum.posInf
        else JSNum.negInf
      else JSNum.num (a / b)
  | _, _ => JSNum.nan

/-- `Math.max`: `NaN` if any argument is `NaN`, otherwise the larger value. -/
def jsMax : JSNum → JSNum → JSNum
  | JSNum.nan, _ => JSNum.nan
  | _, JSNum.nan => JSNum.nan
  | JSNum.posInf, _ => JSNum.posInf
  | _, JSNum.posInf => JSNum.posInf
  | JSNum.negInf, b => b
  | a, JSNum.negInf => a
  | JSNum.num a, JSNum.num b => JSNum.num (max a b)

/-- `Math.min`: `NaN` if any argument is `NaN`, otherwise the smaller value. -/
def jsMin : JSNum → JSNum → JSNum
  | JSNum.nan, _ => JSNum.nan
  | _, JSNum.nan => JSNum.nan
  | JSNum.negInf, _ => JSNum.negInf
  | _, JSNum.negInf => JSNum.negInf
  | JSNum.posInf, b => b
  | a, JSNum.posInf => a
  | JSNum.num a, JSNum.num b => JSNum.num (min a b)

/-- `clamp01` (lines 13-15) on JavaScript numbers:
`Math.min(1, Math.max(0, value))`. -/
def clamp01J (value : JSNum) : JSNum := jsMin (JSNum.num 1) (jsMax (JSNum.num 0) value)

/-- The value `handleSetVolumeFromClientX` stores (line 112), evaluated with
exact JavaScript-number semantics:
`clamp01((clientX - rect.left) / rect.width)`. -/
def volumeFromClientXJ (clientX left width : ℚ) : JSNum :=
  clamp01J (jsDiv (jsSub (JSNum.num clientX) (JSNum.num left)) (JSNum.num width))

/-! ### Arithmetic lemmas about the embedded operations -/

lemma jsTrunc_eq_floor {x : ℚ} (hx : 0 ≤ x) : jsTrunc x = ⌊x⌋ := by
  simp [jsTrunc, hx]

lemma jsMod_eq_mathMod {x y : ℚ} (hx : 0 ≤ x) (hy : 0 < y) :
    jsMod x y = mathMod x y := by
  unfold jsMod mathMod
  rw [jsTrunc_eq_floor (div_nonneg hx hy.le)]

lemma mathMod_eq_mul_fract {x y : ℚ} (hy : y ≠ 0) :
    mathMod x y = y * Int.fract (x / y) := by
  unfold mathMod Int.fract
  rw [mul_sub, mul_div_cancel₀ _ hy]

lemma mathMod_nonneg {x y : ℚ} (hy : 0 < y) : 0 ≤ mathMod x y := by
  rw [mathMod_eq_mul_fract hy.ne']
  exact mul_nonneg hy.le (Int.fract_nonneg _)

lemma mathMod_lt {x y : ℚ} (hy : 0 < y) : mathMod x y < y := by
  rw [mathMod_eq_mul_fract hy.ne']
  calc y * Int.fract (x / y) < y * 1 := by
        exact (mul_lt_mul_left hy).mpr (Int.fract_lt_one _)
    _ = y := mul_one y

lemma mathMod_eq_self {x y : ℚ} (h0 : 0 ≤ x) (h1 : x < y) : mathMod x y = x := by
  have hy : 0 < y := lt_of_le_of_lt h0 h1
  have hfl : ⌊x / y⌋ = 0 := by
    rw [Int.floor_eq_zero_iff]
    exact ⟨div_nonneg h0 hy.le, (div_lt_one hy).mpr h1⟩
  unfold mathMod
  rw [hfl]
  ring

lemma mathMod_one (x : ℚ) : mathMod x 1 = Int.fract x := by
  unfold mathMod Int.fract
  rw [div_one, mul_comm, mul_one]

lemma jsMod_nonneg {x y : ℚ} (hx : 0 ≤ x) (hy : 0 < y) : 0 ≤ jsMod x y := by
  rw [jsMod_eq_mathMod hx hy]
  exact mathMod_nonneg hy

lemma jsMod_lt {x y : ℚ} (hx : 0 ≤ x) (hy : 0 < y) : jsMod x y < y := by
  rw [jsMod_eq_mathMod hx hy]
  exact mathMod_lt hy

lemma jsMod_eq_self {x y : ℚ} (h0 : 0 ≤ x) (h1 : x < y) : jsMod x y = x := by
  rw [jsMod_eq_mathMod h0 (lt_of_le_of_lt h0 h1)]
  exact mathMod_eq_self h0 h1

lemma clamp01_nonneg (v : ℚ) : 0 ≤ clamp01 v :=
  le_min zero_le_one (le_max_left 0 v)

lemma clamp01_le_one (v : ℚ) : clamp01 v ≤ 1 := min_le_left 1 _

lemma clamp01_of_le_zero {v : ℚ} (h : v ≤ 0) : clamp01 v = 0 := by
  unfold clamp01
  rw [max_eq_left h]
  exact min_eq_right zero_le_one

lemma clamp01_of_one_le {v : ℚ} (h : 1 ≤ v) : clamp01 v = 1 := by
  unfold clamp01
  rw [max_eq_right (zero_le_one.trans h)]
  exact min_eq_left h

/-! ### Step lemmas -/

lemma step_toggle_of_loading {s : CompState} (h : s.playerState = PState.loading) :
    step s Event.toggle = s := by
  unfold step rawStep handleTogglePlayPause
  simp [h]

lemma step_toggle_of_not_loading {s : CompState} (h : s.playerState ≠ PState.loading) :
    step s Event.toggle =
      { s with
          playerState := PState.loading
          pending := some (nextStateOf s.playerState)
          lastFrame :=
            if s.playerState = PState.playing then none else s.lastFrame } := by
  unfold step rawStep handleTogglePlayPause
  by_cases hp : s.playerState = PState.playing <;> simp [h, hp]

lemma step_frame_playing {s : CompState} (now : ℚ)
    (hps : s.playerState = PState.playing) (hm : s.mounted = true) :
    step s (Event.frame now) = tickFrame s now := by
  unfold step rawStep
  simp [hps, hm, tickFrame]

lemma rawStep_lastFrame_none {s : CompState} {e : Event}
    (hs : s.playerState ≠ PState.playing) (hlf : s.lastFrame = none) :
    (rawStep s e).lastFrame = none := by
  cases e with
  | toggle =>
      unfold rawStep handleTogglePlayPause
      split_ifs <;> simp [hlf]
  | fireTimeout =>
      unfold rawStep fireToggle
      rcases hp : s.pending with _ | t
      · exact hlf
      · split_ifs <;> simp [hlf]
  | frame now =>
      simp only [rawStep]
      rw [if_neg hs]
      exact hlf
  | sample => exact hlf
  | setVolume track clientX =>
      unfold rawStep handleSetVolumeFromClientX
      cases track <;> simp [hlf]
  | teardown => exact hlf

lemma step_fire_of_loading {s : CompState} {t : PState}
    (hpend : s.pending = some t) (hload : s.playerState = PState.loading)
    (hm : s.mounted = true) :
    step s Event.fireTimeout = { s with playerState := t, pending := none } := by
  unfold step rawStep fireToggle
  simp [hpend, hload, hm]

lemma step_preserves_state_of_no_pending {s : CompState} {e : Event}
    (hp : s.pending = none) (he : e ≠ Event.toggle) :
    (step s e).playerState = s.playerState ∧ (step s e).pending = none := by
  cases e with
  | toggle => exact absurd rfl he
  | fireTimeout =>
      unfold step rawStep fireToggle
      simp [hp]
  | frame now =>
      unfold step rawStep
      by_cases h1 : s.playerState = PState.playing <;>
        by_cases h2 : s.mounted = true <;>
          simp [h1, h2, tickFrame, hp]
  | sample =>
      unfold step rawStep
      simp [hp]
  | setVolume track clientX =>
      unfold step rawStep handleSetVolumeFromClientX
      cases track <;> simp [hp]
  | teardown =>
      unfold step rawStep
      simp [hp]

/-! ### Witness states -/

/-- A playing state with simple whole-number animation values and no recorded
last-frame timestamp (as on entering `playing`). -/
def witnessPlayingState : CompState :=
  { mounted := true
    playerState := PState.playing
    pending := none
    lastFrame := none
    rotation := 90
    progressVal := 0
    volume := 1
    currentSeconds := 0 }

/-- The playing state above after a first frame at timestamp 1000. -/
def witnessTickState : CompState :=
  { witnessPlayingState with lastFrame := some 1000 }

/-! ### Claims -/

/-- C4: a toggle request that arrives while the player state is `loading` is a
no-op: the resulting component state is unchanged, so in particular the state
remains `loading`, no new delayed transition is scheduled, and the pending
transition (the `setTimeout` handle) is exactly what it was. -/
theorem toggle_while_loading_noop (s : CompState)
    (h : s.playerState = PState.loading) :
    step s Event.toggle = s ∧
    (step s Event.toggle).playerState = PState.loading ∧
    (step s Event.toggle).pending = s.pending := by
  have hs := step_toggle_of_loading h
  exact ⟨hs, by rw [hs]; exact h, by rw [hs]⟩

/-- Witness for C4 at the concrete loading state reached by one toggle from
the initial state. -/
theorem toggle_while_loading_noop_witness :
    step (step initState Event.toggle) Event.toggle = step initState Event.toggle ∧
    (step (step initState Event.toggle) Event.toggle).playerState = PState.loading ∧
    (step (step initState Event.toggle) Event.toggle).pending
      = (step initState Event.toggle).pending :=
  toggle_while_loading_noop (step initState Event.toggle) (by decide)

/-- C1 fails on the code: issue toggle A from the reachable playing state, then
toggle B before A's delayed transition fires.  Because A left the state
`loading`, B is dropped by the guard on line 93: it leaves both the pending
transition and the player state untouched (second and third conjuncts), so the
single delayed transition that fires is A's, yielding `paused` (fourth
conjunct) — whereas B's target as the code itself computes targets
(`isPlaying ? "paused" : "playing"`, line 95) at the moment B is issued would
be `playing` (fifth conjunct).  The fired transition therefore does not target
B's target state, and the last toggle does not win. -/
theorem last_toggle_wins_counterexample :
    (step examplePlayingState Event.toggle).playerState = PState.loading ∧
    (step (step examplePlayingState Event.toggle) Event.toggle).pending
      = (step examplePlayingState Event.toggle).pending ∧
    (step (step examplePlayingState Event.toggle) Event.toggle).playerState
      = PState.loading ∧
    (runEvents examplePlayingState
        [Event.toggle, Event.toggle, Event.fireTimeout]).playerState
      = PState.paused ∧
    nextStateOf (step examplePlayingState Event.toggle).playerState
      = PState.playing ∧
    PState.paused ≠ PState.playing := by
  decide

/-- C1 (amended): if toggle A is issued from a non-loading state and toggle B
is issued before A's delayed transition fires, B is ignored (the state is
`loading` at that point, so the whole step is the identity), at most one
delayed transition is pending (A's, carrying A's target), and the single
delayed transition that fires targets A's target state. -/
theorem toggle_debounce_amended (s : CompState)
    (h : s.playerState ≠ PState.loading) (hm : s.mounted = true) :
    step (step s Event.toggle) Event.toggle = step s Event.toggle ∧
    (step s Event.toggle).pending = some (nextStateOf s.playerState) ∧
    (runEvents s [Event.toggle, Event.toggle, Event.fireTimeout]).playerState
      = nextStateOf s.playerState ∧
    (runEvents s [Event.toggle, Event.toggle, Event.fireTimeout]).pending
      = none := by
  have hA := step_toggle_of_not_loading h
  have hload : (step s Event.toggle).playerState = PState.loading := by rw [hA]
  have hpend : (step s Event.toggle).pending = some (nextStateOf s.playerState) := by
    rw [hA]
  have hmount : (step s Event.toggle).mounted = true := by rw [hA]; exact hm
  have hB : step (step s Event.toggle) Event.toggle = step s Event.toggle :=
    step_toggle_of_loading hload
  have hFire :
      step (step s Event.toggle) Event.fireTimeout =
        { step s Event.toggle with
            playerState := nextStateOf s.playerState
            pending := none } :=
    step_fire_of_loading hpend hload hmount
  refine ⟨hB, hpend, ?_, ?_⟩
  · show (step (step (step s Event.toggle) Event.toggle)
        Event.fireTimeout).playerState = _
    rw [hB, hFire]
  · show (step (step (step s Event.toggle) Event.toggle)
        Event.fireTimeout).pending = _
    rw [hB, hFire]

/-- Witness for the amended C1 at the initial (paused) state. -/
theorem toggle_debounce_amended_witness :
    step (step initState Event.toggle) Event.toggle = step initState Event.toggle ∧
    (step initState Event.toggle).pending
      = some (nextStateOf initState.playerState) ∧
    (runEvents initState
        [Event.toggle, Event.toggle, Event.fireTimeout]).playerState
      = nextStateOf initState.playerState ∧
    (runEvents initState
        [Event.toggle, Event.toggle, Event.fireTimeout]).pending = none :=
  toggle_debounce_amended initState (by decide) rfl

/-- C9: tearing the component down while a delayed toggle transition is
pending clears the pending transition (the cleanup on lines 46-51 runs
`clearTimeout`), and over any subsequent sequence of events that the
event loop can still deliver (no `toggle`, since the unmounted component can
receive no clicks) the player state never changes, so it never becomes the
pending target state. -/
theorem teardown_discards_pending (s : CompState) (t : PState)
    (hpend : s.pending = some t) (hne : s.playerState ≠ t)
    (evts : List Event) (hev : ∀ e ∈ evts, e ≠ Event.toggle) :
    (step s Event.teardown).pending = none ∧
    (runEvents (step s Event.teardown) evts).playerState = s.playerState ∧
    (runEvents (step s Event.teardown) evts).playerState ≠ t := by
  have htd : (step s Event.teardown).pending = none ∧
      (step s Event.teardown).playerState = s.playerState := by
    unfold step rawStep
    simp
  have main : ∀ (l : List Event) (s₀ : CompState), s₀.pending = none →
      (∀ e ∈ l, e ≠ Event.toggle) →
      (runEvents s₀ l).playerState = s₀.playerState ∧
      (runEvents s₀ l).pending = none := by
    intro l
    induction l with
    | nil => exact fun s₀ h _ => ⟨rfl, h⟩
    | cons e rest ih =>
        intro s₀ h hl
        have hs := step_preserves_state_of_no_pending h
          (hl e (List.mem_cons_self e rest))
        have hrest := ih (step s₀ e) hs.2 fun x hx => hl x (List.mem_cons_of_mem e hx)
        constructor
        · show (runEvents (step s₀ e) rest).playerState = s₀.playerState
          rw [hrest.1, hs.1]
        · show (runEvents (step s₀ e) rest).pending = none
          exact hrest.2
  have hm := main evts (step s Event.teardown) htd.1 hev
  refine ⟨htd.1, ?_, ?_⟩
  · rw [hm.1, htd.2]
  · rw [hm.1, htd.2]; exact hne

/-- Witness for C9: teardown right after a toggle from the initial state, then
the stale timer slot fires, the label sampler runs and a frame arrives; the
state never becomes the pending target `playing`. -/
theorem teardown_discards_pending_witness :
    (step (step initState Event.toggle) Event.teardown).pending = none ∧
    (runEvents (step (step initState Event.toggle) Event.teardown)
        [Event.fireTimeout, Event.sample, Event.frame 100]).playerState
      = (step initState Event.toggle).playerState ∧
    (runEvents (step (step initState Event.toggle) Event.teardown)
        [Event.fireTimeout, Event.sample, Event.frame 100]).playerState
      ≠ PState.playing :=
  teardown_discards_pending (step initState Event.toggle) PState.playing
    (by decide) (by decide) [Event.fireTimeout, Event.sample, Event.frame 100]
    (by decide)

/-! ### Tick field lemmas -/

lemma tickFrame_progressVal {s : CompState} {last : ℚ}
    (hl : s.lastFrame = some last) (now : ℚ) :
    (tickFrame s now).progressVal =
      jsMod (s.progressVal + max 0 (now - last) / PROGRESS_DURATION_MS) 1 := by
  unfold tickFrame
  simp [hl]

lemma tickFrame_rotation {s : CompState} {last : ℚ}
    (hl : s.lastFrame = some last) (now : ℚ) :
    (tickFrame s now).rotation =
      jsMod (s.rotation + max 0 (now - last) * 360 / 20000) 360 := by
  unfold tickFrame
  simp [hl]

lemma tickFrame_of_none {s : CompState} (hl : s.lastFrame = none) (now : ℚ) :
    (tickFrame s now).rotation = jsMod s.rotation 360 ∧
    (tickFrame s now).progressVal = jsMod s.progressVal 1 := by
  unfold tickFrame
  simp [hl]

/-- C2: one animation tick while playing, with recorded last timestamp `last`
and current timestamp `now` (elapsed = `now - last ≥ 0`), sets the progress
fraction to `(old + elapsed/225000) mod 1`, and the result lies in `[0, 1)`. -/
theorem tick_progress_spec (s : CompState) (last now : ℚ)
    (hm : s.mounted = true) (hps : s.playerState = PState.playing)
    (hl : s.lastFrame = some last) (hle : last ≤ now)
    (h0 : 0 ≤ s.progressVal) (h1 : s.progressVal < 1) :
    (step s (Event.frame now)).progressVal
      = mathMod (s.progressVal + (now - last) / 225000) 1 ∧
    0 ≤ (step s (Event.frame now)).progressVal ∧
    (step s (Event.frame now)).progressVal < 1 := by
  rw [step_frame_playing now hps hm, tickFrame_progressVal hl now]
  have hd : max 0 (now - last) = now - last := max_eq_right (by linarith)
  rw [hd]
  have hx : 0 ≤ s.progressVal + (now - last) / PROGRESS_DURATION_MS :=
    add_nonneg h0 (div_nonneg (by linarith) (by norm_num [PROGRESS_DURATION_MS]))
  refine ⟨?_, jsMod_nonneg hx one_pos, jsMod_lt hx one_pos⟩
  rw [jsMod_eq_mathMod hx one_pos]
  rfl

/-- Witness for C2 at a concrete playing state, frame timestamps 1000 and
2000. -/
theorem tick_progress_spec_witness :
    (step witnessTickState (Event.frame 2000)).progressVal
      = mathMod (witnessTickState.progressVal + (2000 - 1000) / 225000) 1 ∧
    0 ≤ (step witnessTickState (Event.frame 2000)).progressVal ∧
    (step witnessTickState (Event.frame 2000)).progressVal < 1 :=
  tick_progress_spec witnessTickState 1000 2000 rfl rfl rfl (by decide)
    (by decide) (by decide)

/-- C3: one animation tick while playing, with recorded last timestamp `last`
and current timestamp `now` (elapsed = `now - last ≥ 0`), sets the rotation
angle to `(old + elapsed*360/20000) mod 360`, and the result lies in
`[0, 360)`. -/
theorem tick_rotation_spec (s : CompState) (last now : ℚ)
    (hm : s.mounted = true) (hps : s.playerState = PState.playing)
    (hl : s.lastFrame = some last) (hle : last ≤ now)
    (hr0 : 0 ≤ s.rotation) (hr1 : s.rotation < 360) :
    (step s (Event.frame now)).rotation
      = mathMod (s.rotation + (now - last) * 360 / 20000) 360 ∧
    0 ≤ (step s (Event.frame now)).rotation ∧
    (step s (Event.frame now)).rotation < 360 := by
  rw [step_frame_playing now hps hm, tickFrame_rotation hl now]
  have hd : max 0 (now - last) = now - last := max_eq_right (by linarith)
  rw [hd]
  have hx : 0 ≤ s.rotation + (now - last) * 360 / 20000 :=
    add_nonneg hr0 (div_nonneg (mul_nonneg (by linarith) (by norm_num)) (by norm_num))
  have h360 : (0:ℚ) < 360 := by norm_num
  exact ⟨jsMod_eq_mathMod hx h360, jsMod_nonneg hx h360, jsMod_lt hx h360⟩

/-- Witness for C3 at a concrete playing state, frame timestamps 1000 and
2000. -/
theorem tick_rotation_spec_witness :
    (step witnessTickState (Event.frame 2000)).rotation
      = mathMod (witnessTickState.rotation + (2000 - 1000) * 360 / 20000) 360 ∧
    0 ≤ (step witnessTickState (Event.frame 2000)).rotation ∧
    (step witnessTickState (Event.frame 2000)).rotation < 360 :=
  tick_rotation_spec witnessTickState 1000 2000 rfl rfl rfl (by decide)
    (by decide) (by decide)

/-- C10: the per-tick delta is `Math.max(0, now - last)` (line 65), so even
when the frame clock runs backwards (`now ≤ last`) a tick leaves the rotation
and progress values exactly where they were, and for every pair of timestamps
the updated values stay inside `[0, 360)` and `[0, 1)`. -/
theorem backwards_clock_safe (s : CompState) (last now : ℚ)
    (hm : s.mounted = true) (hps : s.playerState = PState.playing)
    (hl : s.lastFrame = some last)
    (hr0 : 0 ≤ s.rotation) (hr1 : s.rotation < 360)
    (hp0 : 0 ≤ s.progressVal) (hp1 : s.progressVal < 1) :
    (now ≤ last →
      (step s (Event.frame now)).rotation = s.rotation ∧
      (step s (Event.frame now)).progressVal = s.progressVal) ∧
    0 ≤ (step s (Event.frame now)).rotation ∧
    (step s (Event.frame now)).rotation < 360 ∧
    0 ≤ (step s (Event.frame now)).progressVal ∧
    (step s (Event.frame now)).progressVal < 1 := by
  rw [step_frame_playing now hps hm, tickFrame_rotation hl now,
    tickFrame_progressVal hl now]
  have hd0 : (0:ℚ) ≤ max 0 (now - last) := le_max_left _ _
  have hxr : 0 ≤ s.rotation + max 0 (now - last) * 360 / 20000 :=
    add_nonneg hr0 (div_nonneg (mul_nonneg hd0 (by norm_num)) (by norm_num))
  have hxp : 0 ≤ s.progressVal + max 0 (now - last) / PROGRESS_DURATION_MS :=
    add_nonneg hp0 (div_nonneg hd0 (by norm_num [PROGRESS_DURATION_MS]))
  have h360 : (0:ℚ) < 360 := by norm_num
  refine ⟨?_, jsMod_nonneg hxr h360, jsMod_lt hxr h360,
    jsMod_nonneg hxp one_pos, jsMod_lt hxp one_pos⟩
  intro hback
  have hz : max 0 (now - last) = 0 := max_eq_left (by linarith)
  rw [hz]
  norm_num
  exact ⟨jsMod_eq_self hr0 hr1, jsMod_eq_self hp0 hp1⟩

/-- Witness for C10 with a backwards clock: last timestamp 1000, current
timestamp 500. -/
theorem backwards_clock_safe_witness :
    ((500:ℚ) ≤ 1000 →
      (step witnessTickState (Event.frame 500)).rotation
        = witnessTickState.rotation ∧
      (step witnessTickState (Event.frame 500)).progressVal
        = witnessTickState.progressVal) ∧
    0 ≤ (step witnessTickState (Event.frame 500)).rotation ∧
    (step witnessTickState (Event.frame 500)).rotation < 360 ∧
    0 ≤ (step witnessTickState (Event.frame 500)).progressVal ∧
    (step witnessTickState (Event.frame 500)).progressVal < 1 :=
  backwards_clock_safe witnessTickState 1000 500 rfl rfl rfl (by decide)
    (by decide) (by decide) (by decide)

/-- C5: while the player state is not `playing`, no event advances the
rotation or the progress fraction (first conjunct); the "last tick timestamp
is `none` whenever the loop is stopped" invariant is preserved by every step
(second conjunct: the `useEffect` on lines 54-58 resets `lastFrameRef` on
leaving `playing`); and on re-entering `playing` — where that invariant gives
`lastFrame = none` — the first tick of the new run applies a zero elapsed
delta, leaving both values unchanged (no catch-up jump; third conjunct). -/
theorem pause_freezes_animation (s : CompState) (e : Event) (now : ℚ) :
    (s.playerState ≠ PState.playing →
      (step s e).rotation = s.rotation ∧
      (step s e).progressVal = s.progressVal) ∧
    ((s.playerState ≠ PState.playing → s.lastFrame = none) →
      (step s e).playerState ≠ PState.playing → (step s e).lastFrame = none) ∧
    (s.playerState = PState.playing → s.mounted = true → s.lastFrame = none →
      0 ≤ s.rotation → s.rotation < 360 →
      0 ≤ s.progressVal → s.progressVal < 1 →
      (step s (Event.frame now)).rotation = s.rotation ∧
      (step s (Event.frame now)).progressVal = s.progressVal) := by
  refine ⟨?_, ?_, ?_⟩
  · intro h
    have hcond : ¬(s.playerState = PState.playing ∧
        (rawStep s e).playerState ≠ PState.playing) := fun hc => h hc.1
    unfold step
    rw [if_neg hcond]
    cases e with
    | toggle =>
        unfold rawStep handleTogglePlayPause
        split_ifs <;> simp
    | fireTimeout =>
        unfold rawStep fireToggle
        rcases hp : s.pending with _ | t
        · exact ⟨rfl, rfl⟩
        · split_ifs <;> simp
    | frame now' =>
        simp only [rawStep]
        rw [if_neg h]
        exact ⟨rfl, rfl⟩
    | sample => exact ⟨rfl, rfl⟩
    | setVolume track clientX =>
        unfold rawStep handleSetVolumeFromClientX
        cases track <;> simp
    | teardown => exact ⟨rfl, rfl⟩
  · intro hInv h
    unfold step at h ⊢
    by_cases hc : s.playerState = PState.playing ∧
        (rawStep s e).playerState ≠ PState.playing
    · rw [if_pos hc]
    · rw [if_neg hc] at h ⊢
      have hs : s.playerState ≠ PState.playing := fun hA => hc ⟨hA, h⟩
      exact rawStep_lastFrame_none hs (hInv hs)
  · intro hps hm hl hr0 hr1 hp0 hp1
    rw [step_frame_playing now hps hm]
    have hnone := tickFrame_of_none hl now
    rw [hnone.1, hnone.2]
    exact ⟨jsMod_eq_self hr0 hr1, jsMod_eq_self hp0 hp1⟩

/-- Witness for C5: a sampling step in the paused initial state changes
neither animation value and keeps the timestamp empty, and the first frame of
a fresh playing run leaves both values unchanged. -/
theorem pause_freezes_animation_witness :
    ((step initState Event.sample).rotation = initState.rotation ∧
      (step initState Event.sample).progressVal = initState.progressVal) ∧
    (step initState Event.sample).lastFrame = none ∧
    ((step witnessPlayingState (Event.frame 500)).rotation
        = witnessPlayingState.rotation ∧
      (step witnessPlayingState (Event.frame 500)).progressVal
        = witnessPlayingState.progressVal) := by
  have h1 := (pause_freezes_animation initState Event.sample 0).1 (by decide)
  have h2 := (pause_freezes_animation initState Event.sample 0).2.1
    (fun _ => rfl) (by decide)
  have h3 := (pause_freezes_animation witnessPlayingState (Event.frame 500)
    500).2.2 rfl rfl rfl (by decide) (by decide) (by decide) (by decide)
  exact ⟨h1, h2, h3⟩

/-- C6: `formatTime` renders the floored, zero-clamped seconds count as
`minutes:seconds` with the seconds zero-padded to two digits: the listed
concrete values hold, and every non-positive input renders as "0:00". -/
theorem formatTime_spec :
    formatTime 83 = "1:23" ∧ formatTime 0 = "0:00" ∧
    formatTime (-5) = "0:00" ∧ formatTime 225 = "3:45" ∧
    formatTime (839 / 10) = "1:23" ∧
    ∀ x : ℚ, x ≤ 0 → formatTime x = "0:00" := by
  refine ⟨by decide, by decide, by decide, by decide, ?_, ?_⟩
  · have hf : (⌊(839 / 10 : ℚ)⌋ : ℤ) = 83 := by norm_num
    unfold formatTime
    rw [hf]
    decide
  · intro x hx
    have hf : max (0:ℤ) ⌊x⌋ = 0 := max_eq_left (Int.floor_nonpos hx)
    unfold formatTime
    rw [hf]
    decide

/-- Witness for C6's universally quantified part at the input -3. -/
theorem formatTime_spec_witness : formatTime (-3) = "0:00" :=
  formatTime_spec.2.2.2.2.2 (-3) (by norm_num)

/-- C7: a volume update with a track of positive width stores
`clamp01((clientX - trackLeft) / trackWidth)`; at the left edge it stores 0,
at the right edge 1, and pointer positions outside the track clamp to 0
resp. 1. -/
theorem volume_mapping_spec (s : CompState) (l w cx : ℚ) (hw : 0 < w) :
    (handleSetVolumeFromClientX s (some ⟨l, w⟩) cx).volume
      = clamp01 ((cx - l) / w) ∧
    (handleSetVolumeFromClientX s (some ⟨l, w⟩) l).volume = 0 ∧
    (handleSetVolumeFromClientX s (some ⟨l, w⟩) (l + w)).volume = 1 ∧
    (cx < l → (handleSetVolumeFromClientX s (some ⟨l, w⟩) cx).volume = 0) ∧
    (l + w < cx →
      (handleSetVolumeFromClientX s (some ⟨l, w⟩) cx).volume = 1) := by
  have hvol : ∀ x : ℚ, (handleSetVolumeFromClientX s (some ⟨l, w⟩) x).volume
      = clamp01 ((x - l) / w) := fun x => rfl
  refine ⟨hvol cx, ?_, ?_, ?_, ?_⟩
  · rw [hvol l, sub_self, zero_div]
    exact clamp01_of_le_zero le_rfl
  · rw [hvol (l + w), add_sub_cancel_left, div_self hw.ne']
    exact clamp01_of_one_le le_rfl
  · intro h
    rw [hvol cx]
    exact clamp01_of_le_zero (le_of_lt (div_neg_of_neg_of_pos (by linarith) hw))
  · intro h
    rw [hvol cx]
    exact clamp01_of_one_le (le_of_lt ((one_lt_div hw).mpr (by linarith)))

/-- Witness for C7 with a track at left 2, width 4 and a pointer at 10. -/
theorem volume_mapping_spec_witness :
    (handleSetVolumeFromClientX initState (some ⟨2, 4⟩) 10).volume
      = clamp01 ((10 - 2) / 4) ∧
    (handleSetVolumeFromClientX initState (some ⟨2, 4⟩) 2).volume = 0 ∧
    (handleSetVolumeFromClientX initState (some ⟨2, 4⟩) (2 + 4)).volume = 1 ∧
    ((10:ℚ) < 2 →
      (handleSetVolumeFromClientX initState (some ⟨2, 4⟩) 10).volume = 0) ∧
    ((2:ℚ) + 4 < 10 →
      (handleSetVolumeFromClientX initState (some ⟨2, 4⟩) 10).volume = 1) :=
  volume_mapping_spec initState 2 4 10 (by norm_num)

/-- C8 fails on the code at a degenerate bounding box: when the track width is
0 (positive zero, as `getBoundingClientRect` reports for a zero-size element)
and the pointer sits exactly at the track's left edge, JavaScript evaluates
`(clientX - rect.left) / rect.width` as `0 / 0 = NaN`, and
`Math.min(1, Math.max(0, NaN))` is again `NaN`: the stored volume is not a
(rational) number at all, in particular not in `[0, 1]`. -/
theorem volume_nan_counterexample :
    volumeFromClientXJ 5 5 0 = JSNum.nan ∧
    ∀ q : ℚ, volumeFromClientXJ 5 5 0 ≠ JSNum.num q := by
  have h50 : (5:ℚ) - 5 = 0 := by norm_num
  have h : volumeFromClientXJ 5 5 0 = JSNum.nan := by
    simp only [volumeFromClientXJ, jsSub]
    rw [h50]
    rfl
  exact ⟨h, fun q hq => by rw [h] at hq; exact JSNum.noConfusion hq⟩

/-- C8 (amended): for every pointer coordinate and bounding box except the
single degenerate combination `width = 0 ∧ clientX = left`, the volume update
stores an actual number in `[0, 1]`. -/
theorem volume_in_range_amended (cx l w : ℚ) (h : w ≠ 0 ∨ cx ≠ l) :
    ∃ q : ℚ, volumeFromClientXJ cx l w = JSNum.num q ∧ 0 ≤ q ∧ q ≤ 1 := by
  unfold volumeFromClientXJ
  simp only [jsSub]
  by_cases hw : w = 0
  · subst hw
    have hne : cx - l ≠ 0 := sub_ne_zero.mpr (h.resolve_left (fun h0 => h0 rfl))
    rcases lt_or_gt_of_ne hne with hlt | hgt
    · refine ⟨0, ?_, le_refl 0, zero_le_one⟩
      simp only [jsDiv]
      rw [if_pos trivial, if_neg hne, if_neg (not_lt.mpr hlt.le)]
      rfl
    · refine ⟨1, ?_, zero_le_one, le_refl 1⟩
      simp only [jsDiv]
      rw [if_pos trivial, if_neg hne, if_pos hgt]
      rfl
  · refine ⟨clamp01 ((cx - l) / w), ?_, clamp01_nonneg _, clamp01_le_one _⟩
    simp only [jsDiv]
    rw [if_neg hw]
    rfl

/-- Witness for the amended C8 at a degenerate zero-width box with the pointer
off the left edge. -/
theorem volume_in_range_amended_witness :
    ∃ q : ℚ, volumeFromClientXJ 7 5 0 = JSNum.num q ∧ 0 ≤ q ∧ q ≤ 1 :=
  volume_in_range_amended 7 5 0 (Or.inr (by norm_num))
